import Mathlib

/-!
Shallow embedding of the Orion Assistant intent-dispatch and session-state
engine (the `handleRun` dispatch function of the top-level App component, the
note-store and meeting-session state it mutates, the planner/summarizer
collaborators of services/gemini.ts, and the BotAvatar mouth-height map).

Conventions of the embedding:
* JS string truthiness (`s || d` treats `""` and `undefined` as falsy) is
  modelled by `truthy` / `jsOr` on `Option String`.
* The `NoteStore` (a string-keyed JS object) is modelled as an association
  list in key-insertion order; `{...prev, [k]: v}` keeps an existing key in
  place and appends a fresh key, `delete` removes the entry.
* Each fallible external collaborator (planner, code generator, arXiv search,
  news, translation, meeting summarizer) is a parameter of type
  `... → Except String ...`; `.error e` models the call throwing with message
  `e`, `.ok v` models it resolving with `v`.
* `HistoryItem.id` / `timestamp` (wall-clock values) are omitted.
-/

namespace Orion

/-- Models JS `s.trim()`: strip leading and trailing whitespace (kept
executable by computing over the character list). -/
def jsTrim (s : String) : String :=
  String.mk (((s.data.dropWhile Char.isWhitespace).reverse.dropWhile Char.isWhitespace).reverse)

/-- Models JS `s.toLowerCase()` (kept executable by mapping over the
character list). -/
def jsToLower (s : String) : String :=
  String.mk (s.data.map Char.toLower)

/-- JS truthiness for optional strings: `undefined` and `""` are falsy. -/
def truthy : Option String → Option String
  | none => none
  | some s => if s = "" then none else some s

/-- Models the JS idiom `x || d` for an optional string `x`. -/
def jsOr (o : Option String) (d : String) : String :=
  (truthy o).getD d

/-- `NoteStore`: lower-cased topic ↦ ordered notes, in key-insertion order. -/
abbrev NoteStore := List (String × List String)

/-- Lookup of a topic's notes; `[]` when the topic is absent
(models `notes[t] || []`, an existing empty array being truthy). -/
def getNotes (st : NoteStore) (k : String) : List String :=
  match st.find? (fun p => p.1 == k) with
  | some p => p.2
  | none => []

/-- Whether the store has an entry for key `k`. -/
def hasTopic (st : NoteStore) (k : String) : Bool :=
  st.any (fun p => p.1 == k)

/-- Models `{...prev, [k]: [...(prev[k] || []), c]}`: append `c` to key `k`,
keeping an existing key in place and appending a fresh key at the end. -/
def addNote (st : NoteStore) (k c : String) : NoteStore :=
  if hasTopic st k then
    st.map (fun p => if p.1 = k then (p.1, p.2 ++ [c]) else p)
  else
    st ++ [(k, [c])]

/-- Models `const next = {...prev}; delete next[k];`. -/
def removeTopic (st : NoteStore) (k : String) : NoteStore :=
  st.filter (fun p => p.1 != k)

/-- Models `Object.values(notes).flat()`. -/
def flattenNotes (st : NoteStore) : List String :=
  (st.map (fun p => p.2)).flatten

/-- The `MeetingSession` record of types.ts. -/
structure MeetingSession where
  active : Bool
  topic : String
  log : List String
  listening : Bool
deriving DecidableEq, Repr

/-- The initial session: `{ active: false, topic: '', log: [], listening: false }`. -/
def initialMeeting : MeetingSession :=
  { active := false, topic := "", log := [], listening := false }

/-- The `PlannerInfo` record: all fields optional. -/
structure PlannerInfo where
  topic : Option String := none
  content : Option String := none
  meetingAction : Option String := none
  language : Option String := none
deriving DecidableEq, Repr

/-- The `PlannerOutput` record. The `agent` field is kept as a raw string:
`planRequest` returns `JSON.parse(text) as PlannerOutput` without validating
that `agent` lies in the closed `AgentType` set. -/
structure PlannerOutput where
  agent : String
  info : PlannerInfo
deriving DecidableEq, Repr

/-- The placeholder planner output `{ agent: 'unknown', info: {} }`. -/
def defaultPlannerOutput : PlannerOutput :=
  { agent := "unknown", info := {} }

/-- The `Paper` record of types.ts (produced by the arXiv collaborator). -/
structure Paper where
  title : String
  authors : List String
  link : String
  summary : String
  published : String
deriving DecidableEq, Repr

/-- The `NewsResult` record of types.ts. -/
structure NewsResult where
  headline : String
  script : String
  audioData : Option String
  sources : List (String × String)
deriving DecidableEq, Repr

/-- The dynamically-typed `result` field of a `HistoryItem`. -/
inductive RunResult
  | rnull
  | rstr (s : String)
  | rlist (l : List String)
  | rpapers (l : List Paper)
  | rnews (n : NewsResult)
deriving DecidableEq, Repr

/-- The `status` field of a `HistoryItem`. -/
inductive Status
  | planning
  | executing
  | success
  | error
deriving DecidableEq, Repr

/-- A `HistoryItem` (the wall-clock `id`/`timestamp` fields are omitted). -/
structure HistoryItem where
  userQuery : String
  plannerOutput : PlannerOutput
  result : RunResult
  status : Status
  errorMessage : String
deriving DecidableEq, Repr

/-- The external collaborators of services/gemini.ts and services/arxiv.ts,
as fallible functions. `planRequest` catches transport errors internally and
returns the `unknown` fallback, but `getAiClient()` runs before its `try`
block, so it can still throw (missing API key): hence it too is `Except`. -/
structure Effects where
  planRequest : String → Except String PlannerOutput
  generateCode : String → Option String → Except String String
  searchArxiv : String → Except String (List Paper)
  generateNews : String → Except String NewsResult
  translateText : String → String → Except String String
  summarizeMeetingLog : String → List String → Except String String

/-- The local variables of `handleRun` at the end of the inner
`try { switch ... } catch (execError)` block, together with the two pieces of
session state the handlers may have mutated. -/
structure ExecState where
  result : RunResult
  status : Status
  errorMessage : String
  textToSpeak : String
  notes : NoteStore
  meeting : MeetingSession

/-- The inner `catch (execError)` branch: `status = 'error'`,
`errorMsg = execError.message || "Execution failed"`; the `result` variable
keeps its initial value `"Done."` because every case assigns it only after
its (throwing) `await`. State mutations made before the throw persist. -/
def execThrow (e : String) (notes : NoteStore) (meeting : MeetingSession) : ExecState :=
  { result := .rstr "Done."
    status := .error
    errorMessage := if e = "" then "Execution failed" else e
    textToSpeak := "Something went wrong during execution."
    notes := notes
    meeting := meeting }

/-- The `case 'code'` branch of the dispatch switch. -/
def execCode (eff : Effects) (query : String) (plan : PlannerOutput)
    (notes : NoteStore) (meeting : MeetingSession) : ExecState :=
  let codeTopic := jsOr plan.info.topic query
  match eff.generateCode codeTopic plan.info.content with
  | .ok s =>
      { result := .rstr s, status := .success, errorMessage := ""
        textToSpeak := "I've generated the Python code for " ++ codeTopic ++ "."
        notes := notes, meeting := meeting }
  | .error e => execThrow e notes meeting

/-- The `case 'papers'` branch of the dispatch switch. -/
def execPapers (eff : Effects) (plan : PlannerOutput)
    (notes : NoteStore) (meeting : MeetingSession) : ExecState :=
  let paperTopic := jsOr plan.info.topic "General AI"
  match eff.searchArxiv paperTopic with
  | .ok l =>
      { result := .rpapers l, status := .success, errorMessage := ""
        textToSpeak := "I found some ArXiv papers related to " ++ paperTopic ++ "."
        notes := notes, meeting := meeting }
  | .error e => execThrow e notes meeting

/-- The `case 'news'` branch of the dispatch switch. -/
def execNews (eff : Effects) (plan : PlannerOutput)
    (notes : NoteStore) (meeting : MeetingSession) : ExecState :=
  let newsTopic := jsOr plan.info.topic "Latest Tech"
  match eff.generateNews newsTopic with
  | .ok n =>
      { result := .rnews n, status := .success, errorMessage := ""
        textToSpeak := "Here is the latest news update."
        notes := notes, meeting := meeting }
  | .error e => execThrow e notes meeting

/-- The `case 'translate'` branch of the dispatch switch. -/
def execTranslate (eff : Effects) (query : String) (plan : PlannerOutput)
    (notes : NoteStore) (meeting : MeetingSession) : ExecState :=
  let contentToTranslate := jsOr plan.info.content query
  let targetLang := jsOr plan.info.language "English"
  match eff.translateText contentToTranslate targetLang with
  | .ok s =>
      { result := .rstr s, status := .success, errorMessage := ""
        textToSpeak := s
        notes := notes, meeting := meeting }
  | .error e => execThrow e notes meeting

/-- The `case 'notes_add'` branch of the dispatch switch. -/
def execNotesAdd (plan : PlannerOutput)
    (notes : NoteStore) (meeting : MeetingSession) : ExecState :=
  let addTopic := jsToLower (jsOr plan.info.topic "general")
  match truthy plan.info.content with
  | some c =>
      { result := .rstr ("Added note to \"" ++ addTopic ++ "\".")
        status := .success, errorMessage := ""
        textToSpeak := "Note added to " ++ addTopic ++ "."
        notes := addNote notes addTopic c, meeting := meeting }
  | none =>
      { result := .rstr "No content provided for the note."
        status := .error, errorMessage := ""
        textToSpeak := "I didn't catch what you wanted to write."
        notes := notes, meeting := meeting }

/-- The `case 'notes_read'` branch of the dispatch switch. -/
def execNotesRead (plan : PlannerOutput)
    (notes : NoteStore) (meeting : MeetingSession) : ExecState :=
  let readTopic := jsToLower (jsOr plan.info.topic "")
  if readTopic = "all" ∨ readTopic = "" then
    let r := flattenNotes notes
    let r := if r.length = 0 then ["No notes found."] else r
    { result := .rlist r, status := .success, errorMessage := ""
      textToSpeak := "Here are all your notes."
      notes := notes, meeting := meeting }
  else
    { result := .rlist (getNotes notes readTopic), status := .success
      errorMessage := ""
      textToSpeak := "Here are your notes on " ++ readTopic ++ "."
      notes := notes, meeting := meeting }

/-- The `case 'notes_clear'` branch of the dispatch switch. -/
def execNotesClear (plan : PlannerOutput)
    (notes : NoteStore) (meeting : MeetingSession) : ExecState :=
  let clearTopic := jsToLower (jsOr plan.info.topic "")
  if clearTopic ≠ "" then
    { result := .rstr ("Cleared notes for \"" ++ clearTopic ++ "\".")
      status := .success, errorMessage := ""
      textToSpeak := "Cleared notes for " ++ clearTopic ++ "."
      notes := removeTopic notes clearTopic, meeting := meeting }
  else
    { result := .rstr "Cleared all notes.", status := .success
      errorMessage := ""
      textToSpeak := "All notes cleared."
      notes := [], meeting := meeting }

/-- The `case 'meeting'` branch of the dispatch switch. In the `stop` path,
`setMeeting(prev => ({...prev, listening: false}))` runs first, then
`await summarizeMeetingLog(meeting.topic, meeting.log)` on the state
snapshot; the full reset runs only if that await resolves — if it throws,
the inner catch fires with the session still active. -/
def execMeeting (eff : Effects) (query : String) (plan : PlannerOutput)
    (notes : NoteStore) (meeting : MeetingSession) : ExecState :=
  if plan.info.meetingAction = some "start" then
    let mTopic := jsOr plan.info.topic "General Meeting"
    { result := .rstr ("Started meeting: " ++ mTopic ++ ". I am listening.")
      status := .success, errorMessage := ""
      textToSpeak := "Meeting started on " ++ mTopic ++ ". I am listening."
      notes := notes
      meeting := { active := true, topic := mTopic, log := [], listening := true } }
  else if plan.info.meetingAction = some "add" then
    if meeting.active = false then
      let content := jsOr plan.info.content query
      { result := .rstr "No active meeting found. Started \"Ad-hoc Discussion\" and added log entry."
        status := .success, errorMessage := ""
        textToSpeak := "Meeting started and entry added."
        notes := notes
        meeting := { active := true, topic := "Ad-hoc Discussion"
                     log := [content], listening := false } }
    else
      match truthy plan.info.content with
      | some c =>
          { result := .rstr "Added to meeting log.", status := .success
            errorMessage := ""
            textToSpeak := "Added."
            notes := notes
            meeting := { meeting with log := meeting.log ++ [c] } }
      | none =>
          { result := .rstr "Nothing to add.", status := .success
            errorMessage := ""
            textToSpeak := "I didn't catch that."
            notes := notes, meeting := meeting }
  else if plan.info.meetingAction = some "stop" then
    if meeting.active = false then
      { result := .rstr "No active meeting to stop.", status := .error
        errorMessage := ""
        textToSpeak := "There is no active meeting."
        notes := notes, meeting := meeting }
    else
      match eff.summarizeMeetingLog meeting.topic meeting.log with
      | .ok summary =>
          { result := .rstr summary, status := .success, errorMessage := ""
            textToSpeak := "Meeting stopped. Here is your summary and action items."
            notes := notes
            meeting := { active := false, topic := "", log := [], listening := false } }
      | .error e => execThrow e notes { meeting with listening := false }
  else
    { result := .rstr "Unknown meeting action.", status := .error
      errorMessage := ""
      textToSpeak := ""
      notes := notes, meeting := meeting }

/-- The `case 'unknown'` branch of the dispatch switch. -/
def execUnknown (notes : NoteStore) (meeting : MeetingSession) : ExecState :=
  { result := .rstr "I couldn't quite understand that. I can help with Python code, searching ArXiv papers, taking notes, reading news, translation, or tracking meetings."
    status := .error, errorMessage := ""
    textToSpeak := "I'm not sure how to help with that."
    notes := notes, meeting := meeting }

/-- The `switch (plan.agent)` of `handleRun` together with its surrounding
`try/catch`. `notes` and `meeting` are the state snapshots captured by the
closure (the source reads `meeting.topic`, `meeting.log`, `meeting.active`,
`notes` from them), and the returned fields carry the state after the
functional `setNotes`/`setMeeting` updates. The `switch` has no `default`
case: an agent string outside the nine literal cases leaves
`result = "Done."` and `status = 'success'` untouched. -/
def execAgent (eff : Effects) (query : String) (plan : PlannerOutput)
    (notes : NoteStore) (meeting : MeetingSession) : ExecState :=
  if plan.agent = "code" then execCode eff query plan notes meeting
  else if plan.agent = "papers" then execPapers eff plan notes meeting
  else if plan.agent = "news" then execNews eff plan notes meeting
  else if plan.agent = "translate" then execTranslate eff query plan notes meeting
  else if plan.agent = "notes_add" then execNotesAdd plan notes meeting
  else if plan.agent = "notes_read" then execNotesRead plan notes meeting
  else if plan.agent = "notes_clear" then execNotesClear plan notes meeting
  else if plan.agent = "meeting" then execMeeting eff query plan notes meeting
  else if plan.agent = "unknown" then execUnknown notes meeting
  else
    { result := .rstr "Done.", status := .success, errorMessage := ""
      textToSpeak := "", notes := notes, meeting := meeting }

/-- The state `handleRun` operates on. -/
structure AppState where
  notes : NoteStore
  meeting : MeetingSession
  history : List HistoryItem
deriving DecidableEq, Repr

/-- The body of `handleRun`'s outer `try/catch` after the empty/loading guard:
plans, executes, and appends exactly one completed `HistoryItem`. A throw
from `planRequest` is absorbed by the outer `catch`, which stamps the item
with the placeholder plan, `status: 'error'` and
`errorMessage: "Planning failed unexpectedly."`. Returns the new state
together with the appended item. -/
def runCore (eff : Effects) (query : String) (st : AppState) : AppState × HistoryItem :=
  match eff.planRequest query with
  | .error _ =>
      let item : HistoryItem :=
        { userQuery := query, plannerOutput := defaultPlannerOutput
          result := .rnull, status := .error
          errorMessage := "Planning failed unexpectedly." }
      ({ st with history := st.history ++ [item] }, item)
  | .ok plan =>
      let ex := execAgent eff query plan st.notes st.meeting
      let item : HistoryItem :=
        { userQuery := query, plannerOutput := plan
          result := ex.result, status := ex.status
          errorMessage := ex.errorMessage }
      ({ notes := ex.notes, meeting := ex.meeting
         history := st.history ++ [item] }, item)

/-- `handleRun`: `if (!query.trim() || loading) return;` then the pipeline. -/
def handleRun (eff : Effects) (loading : Bool) (query : String)
    (st : AppState) : Option AppState :=
  if jsTrim query = "" ∨ loading = true then none
  else some (runCore eff query st).1

/-! ### Sample collaborator instantiations, for concrete runs -/

/-- Collaborators that all resolve, with fixed answers. -/
def effOk : Effects :=
  { planRequest := fun _ => .ok defaultPlannerOutput
    generateCode := fun _ _ => .ok "print(1)"
    searchArxiv := fun _ => .ok []
    generateNews := fun _ => .ok { headline := "h", script := "s", audioData := none, sources := [] }
    translateText := fun _ _ => .ok "bonjour"
    summarizeMeetingLog := fun _ _ => .ok "SUMMARY" }

/-- Collaborators where only the meeting summarizer throws. -/
def effSummarizeThrow : Effects :=
  { effOk with summarizeMeetingLog := fun _ _ => .error "network error" }

/-! ### Meeting-session transition system

Every mutation of `MeetingSession` the app can perform, with the guards under
which the app performs it:
* the three `meeting` handler paths of the dispatch switch (`start`, the two
  `add` paths, the two `stop` outcomes);
* `toggleMeetingListener`, reachable only through the listener button, which
  is rendered only under `{meeting.active && ...}`;
* the speech-recognition effect, which appends a final transcript only while
  `meeting.active && meeting.listening`, and which forces `listening := false`
  when recognition is unsupported, permission is denied, the service is
  refused, or `recognition.start()` throws. -/

/-- One app-performable mutation of the meeting session. -/
inductive MeetingStep : MeetingSession → MeetingSession → Prop
  | start (s : MeetingSession) (topic : String) :
      MeetingStep s { active := true, topic := topic, log := [], listening := true }
  | addAuto (s : MeetingSession) (content : String) (h : s.active = false) :
      MeetingStep s { active := true, topic := "Ad-hoc Discussion"
                      log := [content], listening := false }
  | addEntry (s : MeetingSession) (c : String) (h : s.active = true) :
      MeetingStep s { s with log := s.log ++ [c] }
  | stopReset (s : MeetingSession) (h : s.active = true) :
      MeetingStep s { active := false, topic := "", log := [], listening := false }
  | stopThrow (s : MeetingSession) (h : s.active = true) :
      MeetingStep s { s with listening := false }
  | toggle (s : MeetingSession) (h : s.active = true) :
      MeetingStep s { s with listening := !s.listening }
  | speechTranscript (s : MeetingSession) (t : String)
      (h : s.active = true) (h2 : s.listening = true) :
      MeetingStep s { s with log := s.log ++ [t] }
  | listenerDenied (s : MeetingSession) :
      MeetingStep s { s with listening := false }

/-- Sessions reachable from the initial inactive session. -/
inductive MeetingReachable : MeetingSession → Prop
  | init : MeetingReachable initialMeeting
  | step {s t : MeetingSession} :
      MeetingReachable s → MeetingStep s t → MeetingReachable t

/-! ### BotAvatar mouth-height map

`const maxHeight = small ? 14 : 24;`
`const height = Math.max(2, Math.min(maxHeight, (average / 255) * maxHeight * 3.5));`
modelled over `ℚ` (the computation is exact real arithmetic on the
magnitudes involved). -/

/-- `small ? 14 : 24`. -/
def mouthMaxHeight (small : Bool) : ℚ :=
  if small then 14 else 24

/-- The unclamped linear term `(average / 255) * maxHeight * 3.5`. -/
def mouthRaw (small : Bool) (average : ℚ) : ℚ :=
  average / 255 * mouthMaxHeight small * 3.5

/-- `Math.max(2, Math.min(maxHeight, (average / 255) * maxHeight * 3.5))`. -/
def mouthHeight (small : Bool) (average : ℚ) : ℚ :=
  max 2 (min (mouthMaxHeight small) (mouthRaw small average))

/-! ### NoteStore lemmas -/

theorem getNotes_cons (p : String × List String) (t : NoteStore) (k : String) :
    getNotes (p :: t) k = if p.1 = k then p.2 else getNotes t k := by
  by_cases h : p.1 = k
  · simp [getNotes, List.find?_cons_of_pos, h]
  · simp only [getNotes, h, if_false]
    rw [List.find?_cons_of_neg]
    simp [h]

theorem getNotes_addNote_self (st : NoteStore) (k c : String) :
    getNotes (addNote st k c) k = getNotes st k ++ [c] := by
  induction st with
  | nil => simp [addNote, hasTopic, getNotes]
  | cons p t ih =>
    by_cases h : p.1 = k
    · have htop : hasTopic (p :: t) k = true := by simp [hasTopic, h]
      simp [addNote, htop, getNotes_cons, h]
    · have htop : hasTopic (p :: t) k = hasTopic t k := by simp [hasTopic, h]
      cases ht : hasTopic t k
      · simp only [addNote, htop, ht] at ih ⊢
        simp only [Bool.false_eq_true, if_false, List.cons_append] at ih ⊢
        rw [getNotes_cons, getNotes_cons]
        simp [h, ih]
      · simp only [addNote, htop, ht, if_true, List.map_cons] at ih ⊢
        rw [show (if p.1 = k then (p.1, p.2 ++ [c]) else p) = p from if_neg h]
        rw [getNotes_cons, getNotes_cons]
        simp [h, ih]

theorem getNotes_removeTopic_self (st : NoteStore) (k : String) :
    getNotes (removeTopic st k) k = [] := by
  induction st with
  | nil => simp [removeTopic, getNotes]
  | cons p t ih =>
    by_cases h : p.1 = k
    · simpa [removeTopic, h] using ih
    · simp only [removeTopic, List.filter_cons] at *
      simp only [bne_iff_ne, ne_eq, h, not_false_iff, if_true, decide_eq_true_eq]
      rw [getNotes_cons]
      simp [h, ih]

theorem getNotes_removeTopic_other (st : NoteStore) (k k' : String) (h : k' ≠ k) :
    getNotes (removeTopic st k) k' = getNotes st k' := by
  induction st with
  | nil => simp [removeTopic]
  | cons p t ih =>
    by_cases hp : p.1 = k
    · have hpk' : p.1 ≠ k' := by
        rw [hp]
        exact fun hh => h hh.symm
      have heq : getNotes (p :: t) k' = getNotes t k' := by
        rw [getNotes_cons]
        simp [hpk']
      simp only [removeTopic, List.filter_cons] at *
      simp only [hp, bne_self_eq_false, Bool.false_eq_true, if_false, heq]
      simpa [removeTopic] using ih
    · simp only [removeTopic, List.filter_cons] at *
      simp only [bne_iff_ne, ne_eq, hp, not_false_iff, if_true, decide_eq_true_eq]
      rw [getNotes_cons, getNotes_cons]
      by_cases hk : p.1 = k' <;> simp [hk, ih]

/-! ### Dispatch lemmas -/

/-- The pointwise property used by the terminal-status and error-frame
lemmas: status is terminal, and error branches leave the notes untouched and
the meeting untouched or with only `listening` forced to false. -/
def FrameOk (notes : NoteStore) (meeting : MeetingSession) (ex : ExecState) : Prop :=
  (ex.status = .success ∨ ex.status = .error) ∧
  (ex.status = .error →
    ex.notes = notes ∧
    (ex.meeting = meeting ∨ ex.meeting = { meeting with listening := false }))

theorem frameOk_execCode (eff : Effects) (query : String) (plan : PlannerOutput)
    (notes : NoteStore) (meeting : MeetingSession) :
    FrameOk notes meeting (execCode eff query plan notes meeting) := by
  unfold FrameOk execCode execThrow
  dsimp only
  repeat' split
  all_goals simp

theorem frameOk_execPapers (eff : Effects) (plan : PlannerOutput)
    (notes : NoteStore) (meeting : MeetingSession) :
    FrameOk notes meeting (execPapers eff plan notes meeting) := by
  unfold FrameOk execPapers execThrow
  dsimp only
  repeat' split
  all_goals simp

theorem frameOk_execNews (eff : Effects) (plan : PlannerOutput)
    (notes : NoteStore) (meeting : MeetingSession) :
    FrameOk notes meeting (execNews eff plan notes meeting) := by
  unfold FrameOk execNews execThrow
  dsimp only
  repeat' split
  all_goals simp

theorem frameOk_execTranslate (eff : Effects) (query : String) (plan : PlannerOutput)
    (notes : NoteStore) (meeting : MeetingSession) :
    FrameOk notes meeting (execTranslate eff query plan notes meeting) := by
  unfold FrameOk execTranslate execThrow
  dsimp only
  repeat' split
  all_goals simp

theorem frameOk_execNotesAdd (plan : PlannerOutput)
    (notes : NoteStore) (meeting : MeetingSession) :
    FrameOk notes meeting (execNotesAdd plan notes meeting) := by
  unfold FrameOk execNotesAdd
  dsimp only
  repeat' split
  all_goals simp

theorem frameOk_execNotesRead (plan : PlannerOutput)
    (notes : NoteStore) (meeting : MeetingSession) :
    FrameOk notes meeting (execNotesRead plan notes meeting) := by
  unfold FrameOk execNotesRead
  dsimp only
  repeat' split
  all_goals simp

theorem frameOk_execNotesClear (plan : PlannerOutput)
    (notes : NoteStore) (meeting : MeetingSession) :
    FrameOk notes meeting (execNotesClear plan notes meeting) := by
  unfold FrameOk execNotesClear
  dsimp only
  repeat' split
  all_goals simp

theorem frameOk_execMeeting (eff : Effects) (query : String) (plan : PlannerOutput)
    (notes : NoteStore) (meeting : MeetingSession) :
    FrameOk notes meeting (execMeeting eff query plan notes meeting) := by
  unfold FrameOk execMeeting execThrow
  dsimp only
  repeat' split
  all_goals simp

theorem frameOk_execUnknown (notes : NoteStore) (meeting : MeetingSession) :
    FrameOk notes meeting (execUnknown notes meeting) := by
  unfold FrameOk execUnknown
  simp

theorem frameOk_execAgent (eff : Effects) (query : String)
    (plan : PlannerOutput) (notes : NoteStore) (meeting : MeetingSession) :
    FrameOk notes meeting (execAgent eff query plan notes meeting) := by
  unfold execAgent
  repeat' split
  · exact frameOk_execCode ..
  · exact frameOk_execPapers ..
  · exact frameOk_execNews ..
  · exact frameOk_execTranslate ..
  · exact frameOk_execNotesAdd ..
  · exact frameOk_execNotesRead ..
  · exact frameOk_execNotesClear ..
  · exact frameOk_execMeeting ..
  · exact frameOk_execUnknown ..
  · unfold FrameOk
    simp

/-- Every branch of the execution switch (including the inner catch) leaves
the status at `success` or `error`. -/
theorem execAgent_status_terminal (eff : Effects) (query : String)
    (plan : PlannerOutput) (notes : NoteStore) (meeting : MeetingSession) :
    (execAgent eff query plan notes meeting).status = .success ∨
    (execAgent eff query plan notes meeting).status = .error :=
  (frameOk_execAgent eff query plan notes meeting).1

/-- On every branch that ends with `status = error`, the note store is
untouched and the meeting session is either untouched or is the pre-state
with `listening := false` (the partial mutation of the stop handler made
before a throwing summarizer call). -/
theorem execAgent_error_frame (eff : Effects) (query : String)
    (plan : PlannerOutput) (notes : NoteStore) (meeting : MeetingSession) :
    (execAgent eff query plan notes meeting).status = .error →
    (execAgent eff query plan notes meeting).notes = notes ∧
    ((execAgent eff query plan notes meeting).meeting = meeting ∨
      (execAgent eff query plan notes meeting).meeting = { meeting with listening := false }) :=
  (frameOk_execAgent eff query plan notes meeting).2

/-! ### Claim C2 — unrecognized planner agents -/

/-- A planner output whose `agent` field lies outside the closed agent set. -/
def weatherPlan : PlannerOutput := { agent := "weather", info := {} }

/-- C2: the spec requires any planner `agent` outside the closed set (code,
papers, notes_add, notes_read, notes_clear, meeting, news, translate,
unknown) to be treated as `unknown` — a History item with the deterministic
"I couldn't understand" result and status `error`. The dispatch switch has
no `default` case, so the agent string `"weather"` instead falls through
with `result = "Done."` and status `success`, different from the `unknown`
handler's output: the code contradicts the defensive handling the spec
demands. -/
theorem unrecognized_agent_falls_through :
    (execAgent effOk "forecast" weatherPlan [] initialMeeting).status = Status.success ∧
    (execAgent effOk "forecast" weatherPlan [] initialMeeting).result = RunResult.rstr "Done." ∧
    (execAgent effOk "forecast" weatherPlan [] initialMeeting).result ≠
      (execUnknown [] initialMeeting).result := by
  refine ⟨rfl, rfl, ?_⟩
  decide

/-! ### Claim C4 — exactly one terminal History item per run -/

/-- C4: every accepted run (non-empty trimmed query, not already loading)
terminates having appended exactly one new History item, whose status is
`success` or `error` — never `planning` or `executing`. -/
theorem run_appends_one_terminal_item (eff : Effects) (loading : Bool)
    (query : String) (st st' : AppState)
    (h : handleRun eff loading query st = some st') :
    st'.history = st.history ++ [(runCore eff query st).2] ∧
    ((runCore eff query st).2.status = Status.success ∨
      (runCore eff query st).2.status = Status.error) := by
  unfold handleRun at h
  split at h
  · exact absurd h (by simp)
  · injection h with h2
    subst h2
    constructor
    · unfold runCore
      cases hp : eff.planRequest query <;> dsimp
    · unfold runCore
      cases hp : eff.planRequest query with
      | error e => exact Or.inr rfl
      | ok plan =>
          dsimp
          exact execAgent_status_terminal eff query plan st.notes st.meeting

/-- Witness for C4: a concrete accepted run on empty state. -/
theorem run_appends_one_terminal_item_witness :
    ((runCore effOk "hi" { notes := [], meeting := initialMeeting, history := [] }).1).history =
      ({ notes := [], meeting := initialMeeting, history := [] } : AppState).history ++
        [(runCore effOk "hi" { notes := [], meeting := initialMeeting, history := [] }).2] ∧
    ((runCore effOk "hi" { notes := [], meeting := initialMeeting, history := [] }).2.status = Status.success ∨
      (runCore effOk "hi" { notes := [], meeting := initialMeeting, history := [] }).2.status = Status.error) :=
  run_appends_one_terminal_item effOk false "hi" _ _ (by decide)

/-! ### Claim C1 — meeting stop: summarize then reset -/

/-- A planner output requesting `meeting` / `stop`. -/
def stopPlan : PlannerOutput :=
  { agent := "meeting", info := { meetingAction := some "stop" } }

/-- An active session with two log entries and the listener on. -/
def standupSession : MeetingSession :=
  { active := true, topic := "Standup", log := ["alpha", "beta"], listening := true }

/-- C1 counterexample: the claim says the reset to the inactive/empty
session happens even if the summarization collaborator throws. It does not:
with a throwing summarizer, stop leaves the session active with its log
intact (only `listening` is forced off) and the run ends in error. -/
theorem meeting_stop_reset_counterexample :
    (execAgent effSummarizeThrow "stop the meeting" stopPlan [] standupSession).meeting.active = true ∧
    (execAgent effSummarizeThrow "stop the meeting" stopPlan [] standupSession).meeting.log = ["alpha", "beta"] ∧
    (execAgent effSummarizeThrow "stop the meeting" stopPlan [] standupSession).status = Status.error := by
  decide

/-- C1 (amended): with an active session, the stop handler stops listening
and invokes the summarizer with exactly the session's topic and its log
entries in order; whenever the summarizer returns a string (including any
fallback string), the session is reset to inactive/empty and the summary is
the result; when the summarizer throws, the reset does not happen — the
session stays active with only `listening := false` and the run ends in
error, with the note store untouched in both cases. -/
theorem meeting_stop_reset (eff : Effects) (query : String) (plan : PlannerOutput)
    (notes : NoteStore) (meeting : MeetingSession)
    (hagent : plan.agent = "meeting")
    (haction : plan.info.meetingAction = some "stop")
    (hactive : meeting.active = true) :
    (∀ s, eff.summarizeMeetingLog meeting.topic meeting.log = .ok s →
        (execAgent eff query plan notes meeting).meeting =
          { active := false, topic := "", log := [], listening := false } ∧
        (execAgent eff query plan notes meeting).result = RunResult.rstr s ∧
        (execAgent eff query plan notes meeting).status = Status.success ∧
        (execAgent eff query plan notes meeting).notes = notes) ∧
    (∀ e, eff.summarizeMeetingLog meeting.topic meeting.log = .error e →
        (execAgent eff query plan notes meeting).meeting = { meeting with listening := false } ∧
        (execAgent eff query plan notes meeting).status = Status.error ∧
        (execAgent eff query plan notes meeting).notes = notes) := by
  constructor
  · intro s hs
    simp [execAgent, execMeeting, hagent, haction, hactive, hs]
  · intro e he
    simp [execAgent, execMeeting, execThrow, hagent, haction, hactive, he]

/-- Witness for C1 (amended): concrete stop of `standupSession` with a
resolving summarizer. -/
theorem meeting_stop_reset_witness :
    (execAgent effOk "stop" stopPlan [] standupSession).meeting =
      { active := false, topic := "", log := [], listening := false } ∧
    (execAgent effOk "stop" stopPlan [] standupSession).result = RunResult.rstr "SUMMARY" ∧
    (execAgent effOk "stop" stopPlan [] standupSession).status = Status.success ∧
    (execAgent effOk "stop" stopPlan [] standupSession).notes = [] :=
  (meeting_stop_reset effOk "stop" stopPlan [] standupSession rfl rfl rfl).1 "SUMMARY" rfl

/-! ### Claim C3 — error runs leave Session State unmutated -/

/-- An active session used by the C3 counterexample. -/
def retroSession : MeetingSession :=
  { active := true, topic := "Retro", log := ["x"], listening := true }

/-- C3 counterexample: a run that ends with History status `error` yet
left `MeetingSession` mutated: stop with a throwing summarizer has already
turned `listening` off before the throw. -/
theorem error_run_frame_counterexample :
    (execAgent effSummarizeThrow "stop it" stopPlan [] retroSession).status = Status.error ∧
    (execAgent effSummarizeThrow "stop it" stopPlan [] retroSession).meeting ≠ retroSession := by
  decide

/-- C3 (amended): every run that ends with History status `error` leaves the
note store exactly as it was, and leaves the meeting session either exactly
as it was or — only on the stop-with-throwing-summarizer path — as the
pre-state with `listening := false`; no other partial mutation is possible. -/
theorem error_run_frame (eff : Effects) (query : String) (st : AppState) :
    (runCore eff query st).2.status = Status.error →
    (runCore eff query st).1.notes = st.notes ∧
    ((runCore eff query st).1.meeting = st.meeting ∨
      (runCore eff query st).1.meeting = { st.meeting with listening := false }) := by
  unfold runCore
  cases hp : eff.planRequest query with
  | error e =>
      intro h
      exact ⟨rfl, Or.inl rfl⟩
  | ok plan =>
      intro h
      dsimp at h ⊢
      exact execAgent_error_frame eff query plan st.notes st.meeting h

/-- Effects whose planner resolves to the `unknown` agent. -/
def effPlanUnknown : Effects :=
  { effOk with planRequest := fun _ => .ok { agent := "unknown", info := {} } }

/-- Witness for C3 (amended): a concrete error run (unknown agent). -/
theorem error_run_frame_witness :
    (runCore effPlanUnknown "zzz" { notes := [], meeting := initialMeeting, history := [] }).1.notes =
      ({ notes := [], meeting := initialMeeting, history := [] } : AppState).notes ∧
    ((runCore effPlanUnknown "zzz" { notes := [], meeting := initialMeeting, history := [] }).1.meeting =
        ({ notes := [], meeting := initialMeeting, history := [] } : AppState).meeting ∨
      (runCore effPlanUnknown "zzz" { notes := [], meeting := initialMeeting, history := [] }).1.meeting =
        { ({ notes := [], meeting := initialMeeting, history := [] } : AppState).meeting with listening := false }) :=
  error_run_frame effPlanUnknown "zzz" _ (by decide)

/-! ### Claim C5 — listening implies active -/

/-- None of the non-meeting handlers touches the meeting session. -/
theorem execAgent_nonmeeting_meeting_eq (eff : Effects) (query : String)
    (plan : PlannerOutput) (notes : NoteStore) (meeting : MeetingSession)
    (h : plan.agent ≠ "meeting") :
    (execAgent eff query plan notes meeting).meeting = meeting := by
  unfold execAgent execCode execPapers execNews execTranslate execNotesAdd
    execNotesRead execNotesClear execUnknown execThrow
  dsimp only
  repeat' split
  all_goals first
    | rfl
    | exact absurd (by assumption) h

/-- Every meeting-handler outcome is the identity on the session or one of
the app-performable `MeetingStep`s. -/
theorem execMeeting_meeting_steps (eff : Effects) (query : String)
    (plan : PlannerOutput) (notes : NoteStore) (meeting : MeetingSession) :
    (execMeeting eff query plan notes meeting).meeting = meeting ∨
    MeetingStep meeting (execMeeting eff query plan notes meeting).meeting := by
  unfold execMeeting execThrow
  dsimp only
  repeat' split
  all_goals first
    | exact Or.inl rfl
    | exact Or.inr (MeetingStep.start meeting (jsOr plan.info.topic "General Meeting"))
    | exact Or.inr (MeetingStep.addAuto meeting (jsOr plan.info.content query) (by assumption))
    | exact Or.inr (MeetingStep.addEntry meeting _ (by simp_all))
    | exact Or.inr (MeetingStep.stopReset meeting (by simp_all))
    | exact Or.inr (MeetingStep.stopThrow meeting (by simp_all))

/-- Every dispatch run mutates the meeting session only through the
transition system: the result is the pre-session or one `MeetingStep`. -/
theorem execAgent_meeting_steps (eff : Effects) (query : String)
    (plan : PlannerOutput) (notes : NoteStore) (meeting : MeetingSession) :
    (execAgent eff query plan notes meeting).meeting = meeting ∨
    MeetingStep meeting (execAgent eff query plan notes meeting).meeting := by
  by_cases h : plan.agent = "meeting"
  · have hx : execAgent eff query plan notes meeting = execMeeting eff query plan notes meeting := by
      simp [execAgent, h]
    rw [hx]
    exact execMeeting_meeting_steps eff query plan notes meeting
  · exact Or.inl (execAgent_nonmeeting_meeting_eq eff query plan notes meeting h)

/-- C5: starting from the initial inactive session, every app-performable
meeting mutation (dispatch handlers, the active-only listener toggle, the
speech-recognition callbacks) preserves `listening = true → active = true`:
no reachable session is listening while inactive. -/
theorem reachable_listening_implies_active (s : MeetingSession)
    (h : MeetingReachable s) : s.listening = true → s.active = true := by
  induction h with
  | init => simp [initialMeeting]
  | step hr hstep ih => cases hstep <;> simp_all

/-- Witness for C5: the session right after an explicit start is reachable,
listening, and indeed active. -/
theorem reachable_listening_implies_active_witness :
    MeetingReachable { active := true, topic := "Kickoff", log := [], listening := true } ∧
    ({ active := true, topic := "Kickoff", log := [], listening := true } : MeetingSession).active = true :=
  have hr : MeetingReachable { active := true, topic := "Kickoff", log := [], listening := true } :=
    MeetingReachable.step MeetingReachable.init (MeetingStep.start initialMeeting "Kickoff")
  ⟨hr, reachable_listening_implies_active _ hr rfl⟩

/-! ### Claim C6 — notes_read -/

/-- A planner output requesting `notes_read` of topic `"all"`. -/
def readAllPlan : PlannerOutput :=
  { agent := "notes_read", info := { topic := some "all" } }

/-- C6 counterexample: the claim says topic `"all"` returns the flattened
concatenation of every topic's notes; on the empty store that concatenation
is `[]`, but the handler substitutes the singleton `["No notes found."]`. -/
theorem notes_read_all_counterexample :
    (execAgent effOk "read my notes" readAllPlan [] initialMeeting).result =
      RunResult.rlist ["No notes found."] ∧
    (execAgent effOk "read my notes" readAllPlan [] initialMeeting).result ≠
      RunResult.rlist (flattenNotes ([] : NoteStore)) := by
  decide

/-- C6 (amended): `notes_read` with lower-cased topic `"all"` or empty topic
returns the flattened concatenation of every topic's note sequences in
mapping order — except that an empty concatenation is replaced by
`["No notes found."]`; any other topic returns that topic's sequence, or the
empty sequence if absent; the status is always `success` and the state is
untouched. -/
theorem notes_read_spec (eff : Effects) (query : String) (plan : PlannerOutput)
    (notes : NoteStore) (meeting : MeetingSession)
    (hagent : plan.agent = "notes_read") :
    (execAgent eff query plan notes meeting).status = Status.success ∧
    (execAgent eff query plan notes meeting).notes = notes ∧
    (execAgent eff query plan notes meeting).meeting = meeting ∧
    ((jsToLower (jsOr plan.info.topic "") = "all" ∨ jsToLower (jsOr plan.info.topic "") = "") →
      (execAgent eff query plan notes meeting).result =
        RunResult.rlist
          (if (flattenNotes notes).length = 0 then ["No notes found."] else flattenNotes notes)) ∧
    (jsToLower (jsOr plan.info.topic "") ≠ "all" → jsToLower (jsOr plan.info.topic "") ≠ "" →
      (execAgent eff query plan notes meeting).result =
        RunResult.rlist (getNotes notes (jsToLower (jsOr plan.info.topic "")))) := by
  have hx : execAgent eff query plan notes meeting = execNotesRead plan notes meeting := by
    simp [execAgent, hagent]
  rw [hx]
  unfold execNotesRead
  dsimp only
  by_cases hc : jsToLower (jsOr plan.info.topic "") = "all" ∨ jsToLower (jsOr plan.info.topic "") = ""
  · rw [if_pos hc]
    refine ⟨rfl, rfl, rfl, fun _ => rfl, fun h1 h2 => ?_⟩
    rcases hc with hc | hc
    · exact absurd hc h1
    · exact absurd hc h2
  · rw [if_neg hc]
    push_neg at hc
    exact ⟨rfl, rfl, rfl, fun hor => absurd hor (by push_neg; exact hc), fun _ _ => rfl⟩

/-- Witness for C6 (amended): reading `"all"` over a one-topic store. -/
theorem notes_read_spec_witness :
    (execAgent effOk "q" readAllPlan [("general", ["a"])] initialMeeting).status = Status.success ∧
    (execAgent effOk "q" readAllPlan [("general", ["a"])] initialMeeting).notes = [("general", ["a"])] ∧
    (execAgent effOk "q" readAllPlan [("general", ["a"])] initialMeeting).meeting = initialMeeting ∧
    ((jsToLower (jsOr readAllPlan.info.topic "") = "all" ∨ jsToLower (jsOr readAllPlan.info.topic "") = "") →
      (execAgent effOk "q" readAllPlan [("general", ["a"])] initialMeeting).result =
        RunResult.rlist
          (if (flattenNotes [("general", ["a"])]).length = 0 then ["No notes found."]
           else flattenNotes [("general", ["a"])])) ∧
    (jsToLower (jsOr readAllPlan.info.topic "") ≠ "all" → jsToLower (jsOr readAllPlan.info.topic "") ≠ "" →
      (execAgent effOk "q" readAllPlan [("general", ["a"])] initialMeeting).result =
        RunResult.rlist (getNotes [("general", ["a"])] (jsToLower (jsOr readAllPlan.info.topic "")))) :=
  notes_read_spec effOk "q" readAllPlan [("general", ["a"])] initialMeeting rfl

/-! ### Claim C7 — notes_add -/

/-- C7: with truthy (non-empty) content, `notes_add` appends the content to
the note sequence of the lower-cased topic (defaulting to `"general"` when
the topic is omitted or empty) and reports success; with missing (or empty)
content it returns status `error` with an explanatory message and the store
is unchanged. -/
theorem notes_add_spec (eff : Effects) (query : String) (plan : PlannerOutput)
    (notes : NoteStore) (meeting : MeetingSession)
    (hagent : plan.agent = "notes_add") :
    (∀ c, truthy plan.info.content = some c →
      (execAgent eff query plan notes meeting).notes =
        addNote notes (jsToLower (jsOr plan.info.topic "general")) c ∧
      getNotes (execAgent eff query plan notes meeting).notes
          (jsToLower (jsOr plan.info.topic "general")) =
        getNotes notes (jsToLower (jsOr plan.info.topic "general")) ++ [c] ∧
      (execAgent eff query plan notes meeting).status = Status.success ∧
      (execAgent eff query plan notes meeting).result =
        RunResult.rstr ("Added note to \"" ++ jsToLower (jsOr plan.info.topic "general") ++ "\".") ∧
      (execAgent eff query plan notes meeting).meeting = meeting) ∧
    (truthy plan.info.content = none →
      (execAgent eff query plan notes meeting).notes = notes ∧
      (execAgent eff query plan notes meeting).status = Status.error ∧
      (execAgent eff query plan notes meeting).result =
        RunResult.rstr "No content provided for the note." ∧
      (execAgent eff query plan notes meeting).meeting = meeting) := by
  have hx : execAgent eff query plan notes meeting = execNotesAdd plan notes meeting := by
    simp [execAgent, hagent]
  rw [hx]
  unfold execNotesAdd
  dsimp only
  constructor
  · intro c hc
    rw [hc]
    exact ⟨rfl, getNotes_addNote_self notes _ c, rfl, rfl, rfl⟩
  · intro hc
    rw [hc]
    exact ⟨rfl, rfl, rfl, rfl⟩

/-- The planner output of the spec's scenario: `notes_add` with content
`'Buy milk'` and no topic. -/
def addMilkPlan : PlannerOutput :=
  { agent := "notes_add", info := { content := some "Buy milk" } }

/-- Witness for C7: the spec's scenario — adding `'Buy milk'` with the topic
omitted lands in `"general"`. -/
theorem notes_add_spec_witness :
    (execAgent effOk "Add note: Buy milk" addMilkPlan [] initialMeeting).notes =
      addNote [] (jsToLower (jsOr addMilkPlan.info.topic "general")) "Buy milk" ∧
    getNotes (execAgent effOk "Add note: Buy milk" addMilkPlan [] initialMeeting).notes
        (jsToLower (jsOr addMilkPlan.info.topic "general")) =
      getNotes [] (jsToLower (jsOr addMilkPlan.info.topic "general")) ++ ["Buy milk"] ∧
    (execAgent effOk "Add note: Buy milk" addMilkPlan [] initialMeeting).status = Status.success ∧
    (execAgent effOk "Add note: Buy milk" addMilkPlan [] initialMeeting).result =
      RunResult.rstr ("Added note to \"" ++ jsToLower (jsOr addMilkPlan.info.topic "general") ++ "\".") ∧
    (execAgent effOk "Add note: Buy milk" addMilkPlan [] initialMeeting).meeting = initialMeeting :=
  (notes_add_spec effOk "Add note: Buy milk" addMilkPlan [] initialMeeting rfl).1 "Buy milk" rfl

/-! ### Claim C8 — notes_clear -/

/-- C8: `notes_clear` with a non-empty (lower-cased) topic removes exactly
that topic's entry — its lookup becomes empty and every other topic's note
sequence (and the store's order, via the `filter` equation) is unchanged —
and with an empty topic it empties the entire store; both with status
`success` and the meeting untouched. -/
theorem notes_clear_spec (eff : Effects) (query : String) (plan : PlannerOutput)
    (notes : NoteStore) (meeting : MeetingSession)
    (hagent : plan.agent = "notes_clear") :
    (execAgent eff query plan notes meeting).status = Status.success ∧
    (execAgent eff query plan notes meeting).meeting = meeting ∧
    (∀ t, t = jsToLower (jsOr plan.info.topic "") → t ≠ "" →
      (execAgent eff query plan notes meeting).notes = removeTopic notes t ∧
      getNotes (execAgent eff query plan notes meeting).notes t = [] ∧
      (∀ k, k ≠ t → getNotes (execAgent eff query plan notes meeting).notes k = getNotes notes k)) ∧
    (jsToLower (jsOr plan.info.topic "") = "" →
      (execAgent eff query plan notes meeting).notes = []) := by
  have hx : execAgent eff query plan notes meeting = execNotesClear plan notes meeting := by
    simp [execAgent, hagent]
  rw [hx]
  unfold execNotesClear
  dsimp only
  by_cases hc : jsToLower (jsOr plan.info.topic "") = ""
  · rw [if_neg (by simp [hc])]
    exact ⟨rfl, rfl, fun t ht htne => absurd (ht.trans hc) htne, fun _ => rfl⟩
  · rw [if_pos (by simp [hc])]
    refine ⟨rfl, rfl, fun t ht _ => ?_, fun h => absurd h hc⟩
    subst ht
    exact ⟨rfl, getNotes_removeTopic_self notes _,
      fun k hk => getNotes_removeTopic_other notes _ k hk⟩

/-- A planner output requesting `notes_clear` of topic `"work"`. -/
def clearWorkPlan : PlannerOutput :=
  { agent := "notes_clear", info := { topic := some "Work" } }

/-- Witness for C8: clearing topic `"Work"` (case-folded to `"work"`) from a
two-topic store. -/
theorem notes_clear_spec_witness :
    (execAgent effOk "clear work notes" clearWorkPlan [("work", ["w1"]), ("home", ["h1"])] initialMeeting).status =
      Status.success ∧
    (execAgent effOk "clear work notes" clearWorkPlan [("work", ["w1"]), ("home", ["h1"])] initialMeeting).meeting =
      initialMeeting ∧
    (∀ t, t = jsToLower (jsOr clearWorkPlan.info.topic "") → t ≠ "" →
      (execAgent effOk "clear work notes" clearWorkPlan [("work", ["w1"]), ("home", ["h1"])] initialMeeting).notes =
        removeTopic [("work", ["w1"]), ("home", ["h1"])] t ∧
      getNotes (execAgent effOk "clear work notes" clearWorkPlan [("work", ["w1"]), ("home", ["h1"])] initialMeeting).notes t = [] ∧
      (∀ k, k ≠ t →
        getNotes (execAgent effOk "clear work notes" clearWorkPlan [("work", ["w1"]), ("home", ["h1"])] initialMeeting).notes k =
          getNotes [("work", ["w1"]), ("home", ["h1"])] k)) ∧
    (jsToLower (jsOr clearWorkPlan.info.topic "") = "" →
      (execAgent effOk "clear work notes" clearWorkPlan [("work", ["w1"]), ("home", ["h1"])] initialMeeting).notes = []) :=
  notes_clear_spec effOk "clear work notes" clearWorkPlan [("work", ["w1"]), ("home", ["h1"])] initialMeeting rfl

/-! ### Claim C9 — avatar mouth height -/

/-- C9: the mouth-height map is a monotone clamp: on averages in [0, 255]
the height is at least the floor 2 and at most the ceiling (24, or 14 in
small mode), it is monotone nondecreasing in the average, and it equals the
fixed-gain linear term `average / 255 * maxHeight * 3.5` whenever that term
lies between the floor and the ceiling. -/
theorem mouthHeight_clamp_monotone (small : Bool) (a b : ℚ)
    (ha0 : 0 ≤ a) (ha255 : a ≤ 255) (hab : a ≤ b) :
    2 ≤ mouthHeight small a ∧
    mouthHeight small a ≤ mouthMaxHeight small ∧
    mouthHeight small a ≤ mouthHeight small b ∧
    (2 ≤ mouthRaw small a → mouthRaw small a ≤ mouthMaxHeight small →
      mouthHeight small a = mouthRaw small a) := by
  have hM : (2 : ℚ) ≤ mouthMaxHeight small := by
    cases small <;> norm_num [mouthMaxHeight]
  have hMpos : (0 : ℚ) ≤ mouthMaxHeight small := le_trans (by norm_num) hM
  refine ⟨le_max_left _ _, max_le hM (min_le_left _ _), ?_, ?_⟩
  · apply max_le_max le_rfl
    apply min_le_min le_rfl
    unfold mouthRaw
    gcongr
  · intro h2 hMr
    unfold mouthHeight
    rw [min_eq_right hMr, max_eq_right h2]

/-- Witness for C9: averages 100 and 200 in normal (non-small) mode. -/
theorem mouthHeight_clamp_monotone_witness :
    (0 : ℚ) ≤ 100 ∧ (100 : ℚ) ≤ 255 ∧ (100 : ℚ) ≤ 200 ∧
    (2 ≤ mouthHeight false 100 ∧
      mouthHeight false 100 ≤ mouthMaxHeight false ∧
      mouthHeight false 100 ≤ mouthHeight false 200 ∧
      (2 ≤ mouthRaw false 100 → mouthRaw false 100 ≤ mouthMaxHeight false →
        mouthHeight false 100 = mouthRaw false 100)) :=
  ⟨by norm_num, by norm_num, by norm_num,
    mouthHeight_clamp_monotone false 100 200 (by norm_num) (by norm_num) (by norm_num)⟩

/-! ### Claim C10 — ad-hoc sessions do not listen -/

/-- C10: when the meeting `add` handler auto-creates a session because none
is active, the created session has `listening = false` (so the
speech-recognition effect, which requires `active && listening`, never
starts) — unlike the explicit `start` handler, which sets
`listening = true`. -/
theorem meeting_add_autocreate_not_listening (eff : Effects) (query : String)
    (plan : PlannerOutput) (notes : NoteStore) (meeting : MeetingSession)
    (hagent : plan.agent = "meeting") :
    (plan.info.meetingAction = some "add" → meeting.active = false →
      (execAgent eff query plan notes meeting).meeting =
        { active := true, topic := "Ad-hoc Discussion",
          log := [jsOr plan.info.content query], listening := false }) ∧
    (plan.info.meetingAction = some "start" →
      (execAgent eff query plan notes meeting).meeting.listening = true) := by
  have hx : execAgent eff query plan notes meeting = execMeeting eff query plan notes meeting := by
    simp [execAgent, hagent]
  rw [hx]
  unfold execMeeting
  constructor
  · intro ha hact
    simp [ha, hact]
  · intro hs
    simp [hs]

/-- A planner output requesting `meeting` / `add` with some content. -/
def addPlanAdHoc : PlannerOutput :=
  { agent := "meeting", info := { meetingAction := some "add", content := some "note it" } }

/-- Witness for C10: an `add` with no active session creates a non-listening
ad-hoc session. -/
theorem meeting_add_autocreate_not_listening_witness :
    (execAgent effOk "please log this" addPlanAdHoc [] initialMeeting).meeting =
      { active := true, topic := "Ad-hoc Discussion",
        log := [jsOr addPlanAdHoc.info.content "please log this"], listening := false } :=
  (meeting_add_autocreate_not_listening effOk "please log this" addPlanAdHoc [] initialMeeting rfl).1
    rfl rfl

end Orion
